import Mathlib

/-!
Verification of the GitHub file-discovery scripts
(`1_fetchRandomFile.py`, `2_fetchRandomFileLink.py`,
`3_fetchRandomFileFromSubDir.py`, `4_csvLinks.py`) against their design
specification.

The Python code is shallowly embedded: remote listing calls become a mock
API (`String → Option (List Item)` for the breadth-first walkers of
scripts 1 and 2, a finite directory tree for the recursive walker of
script 4, `none` standing for a request that raises), Python strings
become `String`/`List Char`, and the fallible flows return `Option`
sentinels exactly where the scripts return `None`/`False`.
-/

namespace GhScripts

/-! ### Character-list models of the Python string operations used -/

/-- Python `s.split(c)` for a one-character separator: splits on every
occurrence, keeping empty pieces, and always returns at least one piece. -/
def splitOnC (c : Char) : List Char → List (List Char)
  | [] => [[]]
  | x :: rest =>
    if x = c then [] :: splitOnC c rest
    else
      match splitOnC c rest with
      | s :: ss => (x :: s) :: ss
      | [] => [[x]]

/-- Remove every trailing occurrence of `c` (the right half of Python
`s.strip(c)`). -/
def rstripC (c : Char) : List Char → List Char
  | [] => []
  | x :: rest =>
    let r := rstripC c rest
    if r = [] ∧ x = c then [] else x :: r

/-- Python `s.strip(c)`: drop leading and trailing occurrences of `c`. -/
def stripC (c : Char) (cs : List Char) : List Char :=
  rstripC c (cs.dropWhile (fun x => x = c))

/-- Scan for the first `"://"` marker and return what follows it. -/
def dropScheme : List Char → Option (List Char)
  | ':' :: '/' :: '/' :: rest => some rest
  | _ :: rest => dropScheme rest
  | [] => none

/-- Modelled from the Python standard library: `urlparse(url).path` for
the simple `scheme://host/path` URLs this system handles — everything
from the first `/` after the `://` marker (the whole string when no
scheme marker is present). -/
def urlPathC (cs : List Char) : List Char :=
  match dropScheme cs with
  | some rest => rest.dropWhile (fun x => x ≠ '/')
  | none => cs

/-! ### URL Parser
Embeds the identical owner/repo extraction of
`1_fetchRandomFile.py` lines 18-26, `2_fetchRandomFileLink.py` lines
16-24, `3_fetchRandomFileFromSubDir.py` lines 17-24 and
`4_csvLinks.py` lines 19-27:
`path_parts = urlparse(repo_url).path.strip('/').split('/')`,
failure (`None`) when fewer than two parts, else `(parts[0], parts[1])`. -/

def parseOwnerRepo (url : String) : Option (String × String) :=
  let pathParts := (splitOnC '/' (stripC '/' (urlPathC url.toList))).map String.mk
  match pathParts with
  | owner :: repo :: _ => some (owner, repo)
  | _ => none

/-- Modelled from the spec's words for the URL Parser: "Split its path
component on `/`; the first two non-empty segments are owner and
repository name", failing when fewer than two are present. -/
def parseOwnerRepoSpec (url : String) : Option (String × String) :=
  let segs := ((splitOnC '/' (urlPathC url.toList)).filter (fun s => s ≠ [])).map String.mk
  match segs with
  | owner :: repo :: _ => some (owner, repo)
  | _ => none

/-! ### Listing data model -/

/-- One element of a directory-listing response, with the JSON fields the
scripts read: `type`, `name`, `path`, `html_url`, `download_url`. -/
structure Item where
  type : String
  name : String
  path : String
  html_url : String
  download_url : String
deriving DecidableEq

/-- A mock listing API for the breadth-first walkers: the listing for a
requested directory path, `none` when the request raises (network error,
non-2xx via `raise_for_status`, or malformed JSON). The repository root
request is keyed by `""`. -/
def ListingApi : Type := String → Option (List Item)

/-- One pass of the classification loop of `1_fetchRandomFile.py` lines
44-48 / `2_fetchRandomFileLink.py` lines 42-46: `type == 'file'` items are
appended to the file collection, `type == 'dir'` items contribute their
API-supplied `path` to the directory worklist, anything else is ignored. -/
def classify : List Item → List Item × List String
  | [] => ([], [])
  | i :: rest =>
    let fd := classify rest
    if i.type = "file" then (i :: fd.1, fd.2)
    else if i.type = "dir" then (fd.1, i.path :: fd.2)
    else fd

/-- One per-directory listing attempt inside the walker loop: a raising
request is caught and logged, so the directory contributes nothing. -/
def listDir (api : ListingApi) (d : String) : List Item :=
  (api d).getD []

/-- One iteration of the inner `for directory in directories` loop of
`1_fetchRandomFile.py` lines 56-69 / `2_fetchRandomFileLink.py` lines
54-67: list each worklist directory (skipping failures), accumulating
files and newly discovered directory paths in response order. -/
def bfsRound (api : ListingApi) : List String → List Item × List String
  | [] => ([], [])
  | d :: rest =>
    let fd := classify (listDir api d)
    let tail := bfsRound api rest
    (fd.1 ++ tail.1, fd.2 ++ tail.2)

/-- The `while directories and current_depth < max_depth` loop of
`1_fetchRandomFile.py` lines 54-72 / `2_fetchRandomFileLink.py` lines
52-70, with `fuel = max_depth - current_depth`. -/
def bfsLoop (api : ListingApi) : Nat → List String → List Item
  | 0, _ => []
  | fuel + 1, dirs =>
    if dirs = [] then []
    else
      let r := bfsRound api dirs
      r.1 ++ bfsLoop api fuel r.2

/-- The shared Tree Walker of scripts 1 and 2 (`1_fetchRandomFile.py`
lines 31-72, `2_fetchRandomFileLink.py` lines 29-70): the root listing,
whose failure escapes to the outer handler (`none`), then the
depth-limited breadth-first descent with `max_depth = 2`. -/
def collectFiles (api : ListingApi) : Option (List Item) :=
  match api "" with
  | none => none
  | some contents =>
    let fd := classify contents
    some (fd.1 ++ bfsLoop api 2 fd.2)

/-- Directory paths requested during `bfsLoop`: every worklist entry is
requested (also the ones whose request then fails). -/
def bfsLoopReqs (api : ListingApi) : Nat → List String → List String
  | 0, _ => []
  | fuel + 1, dirs =>
    if dirs = [] then []
    else dirs ++ bfsLoopReqs api fuel (bfsRound api dirs).2

/-- All directory paths the scripts-1/2 walker requests, in order: the
root (`""`), then each worklist directory of each round. -/
def collectReqs (api : ListingApi) : List String :=
  "" :: (match api "" with
         | none => []
         | some contents => bfsLoopReqs api 2 (classify contents).2)

/-! ### Selector -/

/-- The index `random.choice` picks: CPython draws a uniform integer below
`len(seq)`; the random state is modelled by an arbitrary natural `r`,
reduced into range. -/
def choiceIdx (n r : Nat) : Nat := r % n

/-- `random.choice(xs)` under random state `r` (`none` only on an empty
sequence, where CPython raises `IndexError`). -/
def randomChoice (xs : List Item) (r : Nat) : Option Item :=
  xs.get? (choiceIdx xs.length r)

/-! ### Flow of script 2: print a random file link -/

/-- `get_random_file_link` (`2_fetchRandomFileLink.py` lines 5-89): walk,
guard against an empty collection, pick a random file, return its
`html_url`; every caught exception yields `None`. -/
def get_random_file_link (api : ListingApi) (r : Nat) : Option String :=
  match collectFiles api with
  | none => none
  | some files =>
    if files = [] then none
    else (randomChoice files r).map (fun f => f.html_url)

/-! ### Flow of script 1: fetch and save a random file -/

/-- `fetch_random_file` (`1_fetchRandomFile.py` lines 7-93): walk, guard,
pick a random file, download its `download_url` (a raising download is
caught by the outer handler), returning the `(file_name, file_content)`
pair or the `(None, None)` sentinel. -/
def fetch_random_file (api : ListingApi) (r : Nat)
    (download : String → Option String) : Option String × Option String :=
  match collectFiles api with
  | none => (none, none)
  | some files =>
    if files = [] then (none, none)
    else
      match randomChoice files r with
      | none => (none, none)
      | some f =>
        match download f.download_url with
        | none => (none, none)
        | some content => (some f.name, some content)

/-- Outcome of the `__main__` block of `1_fetchRandomFile.py`: whether
`save_file` ran, and the line printed. -/
structure MainResult where
  saved : Bool
  message : String
deriving DecidableEq

/-- Python truthiness of the fetched components: `None` and `""` are
falsy. -/
def truthyStr : Option String → Bool
  | none => false
  | some s => !(s == "")

/-- The `__main__` block of `1_fetchRandomFile.py` lines 118-128:
`save_file` runs only under `if file_name and file_content:`. -/
def script1_main (res : Option String × Option String) : MainResult :=
  if truthyStr res.1 && truthyStr res.2 then
    { saved := true
      message := "File saved to: downloaded_files/" ++ res.1.getD "" }
  else
    { saved := false, message := "Failed to fetch a random file." }

/-! ### Script 4: recursive walker over a finite directory tree

`get_contents_recursive` of `4_csvLinks.py` identifies a child directory
by the path it builds itself from the parent path and the entry name, so
its mock API is a finite tree: the listing a directory's request returns
(`fail` for a raising request), each `dir`-typed entry carrying the tree
behind the path the walker would request for it. -/

mutual
inductive DirTree : Type where
  | fail : DirTree
  | ok : EntryList → DirTree
deriving DecidableEq
inductive EntryList : Type where
  | nil : EntryList
  | cons : Item → DirTree → EntryList → EntryList
deriving DecidableEq
end

/-- The child path built at `4_csvLinks.py` line 57:
`f"{dir_path}/{item['name']}" if dir_path else item['name']`. -/
def joinPath (dirPath nm : String) : String :=
  if dirPath = "" then nm else dirPath ++ "/" ++ nm

mutual
/-- `get_contents_recursive` (`4_csvLinks.py` lines 33-64), restricted to
the rows it accumulates into `all_files`: a raising listing request is
caught and contributes nothing; a `file` entry contributes the row
`(f"{dir_path}/{item['name']}", item['html_url'])` (line 49, with no
empty-path guard); a `dir` entry is recursed into under the joined
child path. -/
def walk4Rows (dp : String) : DirTree → List (String × String)
  | .fail => []
  | .ok entries => walk4RowsList dp entries
def walk4RowsList (dp : String) : EntryList → List (String × String)
  | .nil => []
  | .cons it sub rest =>
    (if it.type = "file" then [(dp ++ "/" ++ it.name, it.html_url)]
     else if it.type = "dir" then walk4Rows (joinPath dp it.name) sub
     else []) ++ walk4RowsList dp rest
end

mutual
/-- The directory paths `get_contents_recursive` issues listing requests
for, in order: the directory itself (even when the request then fails),
then recursively the joined child path of each `dir` entry. -/
def walk4Reqs (dp : String) : DirTree → List String
  | .fail => [dp]
  | .ok entries => dp :: walk4ReqsList dp entries
def walk4ReqsList (dp : String) : EntryList → List String
  | .nil => []
  | .cons it sub rest =>
    (if it.type = "file" then []
     else if it.type = "dir" then walk4Reqs (joinPath dp it.name) sub
     else []) ++ walk4ReqsList dp rest
end

mutual
/-- Relabel every entry's API-supplied `path` field (used to state that
script 4's walker never reads it). -/
def relabelPaths (f : String → String) : DirTree → DirTree
  | .fail => .fail
  | .ok entries => .ok (relabelPathsList f entries)
def relabelPathsList (f : String → String) : EntryList → EntryList
  | .nil => .nil
  | .cons it sub rest =>
    .cons { it with path := f it.path } (relabelPaths f sub)
      (relabelPathsList f rest)
end

mutual
/-- Replace every failing listing in the tree by an empty listing (the
spec's "this directory yields zero files" reading of a caught failure). -/
def totalizeTree : DirTree → DirTree
  | .fail => .ok .nil
  | .ok entries => .ok (totalizeList entries)
def totalizeList : EntryList → EntryList
  | .nil => .nil
  | .cons it sub rest => .cons it (totalizeTree sub) (totalizeList rest)
end

/-! ### CSV model

`csv.DictWriter` with the default dialect: fields quoted only when they
contain the delimiter, the quote character or a line break
(QUOTE_MINIMAL), rows terminated by `"\r\n"`. -/

/-- Does the default csv dialect quote this field? -/
def needsQuote (s : List Char) : Bool :=
  s.any (fun c => c = ',' || c = '"' || c = '\r' || c = '\n')

/-- Minimal quoting: wrap in `"` and double every embedded `"`. -/
def quoteField (s : List Char) : List Char :=
  '"' :: (s.flatMap (fun c => if c = '"' then ['"', '"'] else [c])) ++ ['"']

/-- A field as the csv writer emits it. -/
def encodeField (s : List Char) : List Char :=
  if needsQuote s then quoteField s else s

/-- One emitted csv record: two encoded fields, a comma, and `"\r\n"`. -/
def csvLine (a b : List Char) : List Char :=
  encodeField a ++ ',' :: encodeField b ++ ['\r', '\n']

/-- The file content `4_csvLinks.py` lines 74-80 write: the
`articleName,articleUrl` header, then one record per collected row. -/
def writeCsvC (rows : List (List Char × List Char)) : List Char :=
  csvLine "articleName".toList "articleUrl".toList
    ++ (rows.map (fun r => csvLine r.1 r.2)).flatten

/-- String-level wrapper for the emitted csv file content. -/
def writeCsv (rows : List (String × String)) : String :=
  String.mk (writeCsvC (rows.map (fun r => (r.1.toList, r.2.toList))))

/-- Drop one trailing `'\r'` from a parsed line, as a `\r\n`-aware reader
does. -/
def chopCarriage (l : List Char) : List Char :=
  if l.getLast? = some '\r' then l.dropLast else l

/-- Modelled from the spec: "a standard delimited-format reader" for
records without quoted fields — split the content into `\r\n`-terminated
lines, ignore the empty piece after the final terminator, and split each
line on the comma delimiter. -/
def parseCsvC (s : List Char) : List (List (List Char)) :=
  (((splitOnC '\n' s).map chopCarriage).filter (fun l => l ≠ [])).map
    (splitOnC ',')

/-- String-level wrapper for the reader. -/
def parseCsv (s : String) : List (List String) :=
  (parseCsvC s.toList).map (fun row => row.map String.mk)

/-! ### Flow of script 4: export all discovered rows to CSV -/

/-- Outcome of `get_files_from_subdir`: the returned boolean, and the
content written to the output file (`none` when the file was never
created or opened). -/
structure ExportResult where
  success : Bool
  written : Option String
deriving DecidableEq

/-- `get_files_from_subdir` (`4_csvLinks.py` lines 5-83): parse the
repository URL (failure returns `False` before any traversal), collect
rows recursively from `subdir_path`, return `False` without touching the
output file when no rows were found, otherwise write the csv file. -/
def get_files_from_subdir (repo_url : String) (tree : DirTree)
    (subdir_path : String) : ExportResult :=
  match parseOwnerRepo repo_url with
  | none => { success := false, written := none }
  | some _ =>
    let all_files := walk4Rows subdir_path tree
    if all_files = [] then { success := false, written := none }
    else { success := true, written := some (writeCsv all_files) }

/-! ### Listing-request URLs -/

/-- The base listing URL of `1_fetchRandomFile.py` line 29: a hard-coded
constant (the repository's HTML tree page), taking no account of the
owner/repository the URL Parser just extracted. -/
def script1_api_url : String :=
  "https://github.com/krutikpatel/tech-revision-notes/tree/main/SpringFramework"

/-- The root listing URL of `2_fetchRandomFileLink.py` line 27. -/
def script2_api_url (username repo_name : String) : String :=
  "https://api.github.com/repos/" ++ username ++ "/" ++ repo_name ++ "/contents"

/-- The per-directory listing URL of `2_fetchRandomFileLink.py` line 55. -/
def script2_dir_url (username repo_name directory : String) : String :=
  script2_api_url username repo_name ++ "/" ++ directory

/-- The per-directory listing URL of `4_csvLinks.py` line 35 (script 3
line 28 is the same shape). -/
def script4_api_url (username repo_name dir_path : String) : String :=
  "https://api.github.com/repos/" ++ username ++ "/" ++ repo_name
    ++ "/contents/" ++ dir_path

/-- Modelled from the spec: the claimed listing-request form
`GET <api-root>/repos/{owner}/{repo}/contents/{path}` with GitHub's API
root. -/
def specListingUrl (owner repo p : String) : String :=
  "https://api.github.com/repos/" ++ owner ++ "/" ++ repo ++ "/contents/" ++ p

/-! ### Depth-indexed view of the bounded walkers (for the depth claims) -/

/-- The worklist one round of listings produces from `ds`: the
API-supplied paths of the `dir` entries of each successful listing. -/
def stepDirs (api : ListingApi) (ds : List String) : List String :=
  (ds.map (fun d => (classify (listDir api d)).2)).flatten

/-- Directories reached `k` listing rounds after worklist `ds`. -/
def dirsAt (api : ListingApi) (ds : List String) : Nat → List String
  | 0 => ds
  | k + 1 => dirsAt api (stepDirs api ds) k

/-- Files produced by listing the round-`k` worklist. -/
def filesAt (api : ListingApi) (ds : List String) (k : Nat) : List Item :=
  ((dirsAt api ds k).map (fun d => (classify (listDir api d)).1)).flatten

/-- Files whose containing directory lies at most `n` listing descents
below the start: the start listing's own files, then the files of each of
the first `n` rounds. -/
def filesWithinDepth (api : ListingApi) (n : Nat) : List Item :=
  match api "" with
  | none => []
  | some contents =>
    (classify contents).1
      ++ ((List.range n).map (filesAt api (classify contents).2)).flatten

/-! ### Concrete families used by the claims -/

/-- A file item named `nm`. -/
def mkFile (nm : String) : Item :=
  { type := "file", name := nm, path := nm
    html_url := "https://host/view/" ++ nm
    download_url := "https://host/raw/" ++ nm }

/-- A directory item named `nm` whose API-supplied `path` field is `p`. -/
def mkDir (nm p : String) : Item :=
  { type := "dir", name := nm, path := p, html_url := "", download_url := "" }

/-- A mock API whose root listing holds a single directory entry named
`"d"` with API-supplied path `p`, every other listing being empty. -/
def apiSingleDir (p : String) : ListingApi :=
  fun q => if q = "" then some [mkDir "d" p] else some []

/-- A chain of directories for script 4: `chainTree n` has one file per
level and a single subdirectory, `n` levels deep. -/
def chainTree : Nat → DirTree
  | 0 => .ok (.cons (mkFile "f") (.ok .nil) .nil)
  | n + 1 =>
    .ok (.cons (mkFile "f") (.ok .nil)
          (.cons (mkDir "d" "d") (chainTree n) .nil))

/-- A well-formed repository URL with the given path segments:
`https://host/<seg1>/<seg2>/...`. -/
def joinSegs : List (List Char) → List Char
  | [] => []
  | [s] => s
  | s :: rest => s ++ '/' :: joinSegs rest

/-- The URL `https://host/<segments joined by slashes>`. -/
def urlOfSegs (segs : List (List Char)) : String :=
  String.mk ("https://host".toList ++ '/' :: joinSegs segs)

/-- Replace every failing listing of a mock API by an empty listing — the
spec's "this directory yields zero files" reading of a caught per-directory
failure. -/
def totalizeApi (api : ListingApi) : ListingApi :=
  fun p => some ((api p).getD [])

/-- A field that the csv dialect never needs to quote (the spec: "Field
values are not present in this domain's inputs (names/URLs) that would
require escaping"). -/
def okField (s : String) : Prop :=
  ∀ ch ∈ s.toList, ch ≠ ',' ∧ ch ≠ '"' ∧ ch ≠ '\r' ∧ ch ≠ '\n'

/-- An entry list holding the given items as leaf entries. -/
def filesEntries : List Item → EntryList
  | [] => .nil
  | f :: rest => .cons f (.ok .nil) (filesEntries rest)

/-- Witness API: the root holds two sibling directories, `pa` whose own
listing request fails and `pb` whose listing holds one file. -/
def apiSib : ListingApi :=
  fun q =>
    if q = "" then some [mkDir "a" "pa", mkDir "b" "pb"]
    else if q = "pa" then none
    else if q = "pb" then some [mkFile "fb"]
    else some []

/-- Witness API whose every request (the root's included) fails. -/
def apiDead : ListingApi := fun _ => none

/-- Witness tree: a directory whose listing request fails next to a file. -/
def exTree : DirTree :=
  .ok (.cons (mkDir "a" "pa") .fail (.cons (mkFile "g") (.ok .nil) .nil))

/-- Witness collection of two distinct items. -/
def exTwo : List Item := [mkFile "a", mkFile "b"]

/-- Witness API: a four-deep chain of directories with one file each
(`p1`, `p2`, ... are the API-supplied directory paths). -/
def apiChain : ListingApi :=
  fun q =>
    if q = "" then some [mkFile "f0", mkDir "d" "p1"]
    else if q = "p1" then some [mkFile "f1", mkDir "d" "p2"]
    else if q = "p2" then some [mkFile "f2", mkDir "d" "p3"]
    else if q = "p3" then some [mkFile "f3", mkDir "d" "p4"]
    else some [mkFile "deep"]

/-- Witness API: every listing succeeds and is empty. -/
def apiEmpty : ListingApi := fun _ => some []

/-- Witness API: the root holds a single file. -/
def apiOneFile : ListingApi :=
  fun q => if q = "" then some [mkFile "A"] else some []

/-! ## Helper lemmas about the string-splitting model -/

theorem splitOnC_nosep {c : Char} : ∀ {s : List Char}, c ∉ s → splitOnC c s = [s]
  | [], _ => rfl
  | x :: rest, h => by
    have hx : ¬x = c := fun hc => h (hc ▸ List.mem_cons_self x rest)
    have ih := splitOnC_nosep (s := rest) (fun hm => h (List.mem_cons_of_mem x hm))
    simp [splitOnC, hx, ih]

theorem splitOnC_append {c : Char} :
    ∀ {s : List Char} (ys : List Char), c ∉ s →
      splitOnC c (s ++ c :: ys) = s :: splitOnC c ys
  | [], ys, _ => by simp [splitOnC]
  | x :: rest, ys, h => by
    have hx : ¬x = c := fun hc => h (hc ▸ List.mem_cons_self x rest)
    have ih := splitOnC_append (s := rest) ys (fun hm => h (List.mem_cons_of_mem x hm))
    simp [splitOnC, hx, ih]

theorem splitOnC_ne_nil {c : Char} : ∀ (s : List Char), splitOnC c s ≠ []
  | [] => by simp [splitOnC]
  | x :: rest => by
    by_cases hx : x = c
    · simp [splitOnC, hx]
    · cases hsp : splitOnC c rest with
      | nil => exact absurd hsp (splitOnC_ne_nil rest)
      | cons s ss => simp [splitOnC, hx, hsp]

theorem rstripC_nomem {c : Char} : ∀ {s : List Char}, c ∉ s → rstripC c s = s
  | [], _ => rfl
  | x :: rest, h => by
    have hx : ¬x = c := fun hc => h (hc ▸ List.mem_cons_self x rest)
    have ih := rstripC_nomem (s := rest) (fun hm => h (List.mem_cons_of_mem x hm))
    simp [rstripC, ih, hx]

theorem rstripC_append (c : Char) :
    ∀ (xs ys : List Char),
      rstripC c (xs ++ ys) =
        if rstripC c ys = [] then rstripC c xs else xs ++ rstripC c ys
  | [], ys => by by_cases h : rstripC c ys = [] <;> simp [rstripC, h]
  | x :: xs, ys => by
    have ih := rstripC_append c xs ys
    show (if rstripC c (xs ++ ys) = [] ∧ x = c then [] else x :: rstripC c (xs ++ ys)) = _
    rw [ih]
    by_cases h : rstripC c ys = []
    · simp [rstripC, h]
    · have hxs : xs ++ rstripC c ys ≠ [] := by
        intro hnil
        exact h (List.append_eq_nil.mp hnil).2
      simp [rstripC, h, hxs]

theorem joinSegs_ne_nil :
    ∀ {segs : List (List Char)}, segs ≠ [] → (∀ s ∈ segs, s ≠ []) → joinSegs segs ≠ []
  | [], h, _ => absurd rfl h
  | [s], _, hs => by simpa [joinSegs] using hs s (List.mem_singleton.mpr rfl)
  | s :: t :: rest, _, hs => by
    have h1 : s ≠ [] := hs s (List.mem_cons_self _ _)
    cases s with
    | nil => exact absurd rfl h1
    | cons a as => simp [joinSegs]

theorem splitOnC_joinSegs :
    ∀ {segs : List (List Char)}, segs ≠ [] → (∀ s ∈ segs, '/' ∉ s) →
      splitOnC '/' (joinSegs segs) = segs
  | [], h, _ => absurd rfl h
  | [s], _, hs => by
    simpa [joinSegs] using splitOnC_nosep (hs s (List.mem_singleton.mpr rfl))
  | s :: t :: rest, _, hs => by
    have h1 : '/' ∉ s := hs s (List.mem_cons_self _ _)
    have ih := @splitOnC_joinSegs (t :: rest) (by simp)
      (fun u hu => hs u (List.mem_cons_of_mem s hu))
    show splitOnC '/' (joinSegs (s :: t :: rest)) = s :: t :: rest
    rw [show joinSegs (s :: t :: rest) = s ++ '/' :: joinSegs (t :: rest) from rfl,
      splitOnC_append _ h1, ih]

theorem rstripC_joinSegs :
    ∀ {segs : List (List Char)}, (∀ s ∈ segs, s ≠ [] ∧ '/' ∉ s) →
      rstripC '/' (joinSegs segs) = joinSegs segs
  | [], _ => rfl
  | [s], hs => rstripC_nomem (hs s (List.mem_singleton.mpr rfl)).2
  | s :: t :: rest, hs => by
    have ih := @rstripC_joinSegs (t :: rest)
      (fun u hu => hs u (List.mem_cons_of_mem s hu))
    have hne : joinSegs (t :: rest) ≠ [] :=
      joinSegs_ne_nil (by simp) (fun u hu => (hs u (List.mem_cons_of_mem s hu)).1)
    have hys : rstripC '/' ('/' :: joinSegs (t :: rest)) = '/' :: joinSegs (t :: rest) := by
      simp [rstripC, ih, hne]
    rw [show joinSegs (s :: t :: rest) = s ++ '/' :: joinSegs (t :: rest) from rfl,
      rstripC_append, hys, if_neg (by simp [hne])]

theorem stripC_slash_joinSegs {segs : List (List Char)} (hne : segs ≠ [])
    (hs : ∀ s ∈ segs, s ≠ [] ∧ '/' ∉ s) :
    stripC '/' ('/' :: joinSegs segs) = joinSegs segs := by
  have hdrop : ('/' :: joinSegs segs).dropWhile (fun x => x = '/') = joinSegs segs := by
    rw [List.dropWhile_cons]
    simp only [decide_True, if_true]
    cases segs with
    | nil => exact absurd rfl hne
    | cons s rest =>
      have h1 := hs s (List.mem_cons_self _ _)
      cases s with
      | nil => exact absurd rfl h1.1
      | cons a as =>
        have ha : a ≠ '/' := fun hc => h1.2 (hc ▸ List.mem_cons_self a as)
        have hhead : ∃ zs, joinSegs ((a :: as) :: rest) = a :: zs := by
          cases rest with
          | nil => exact ⟨as, rfl⟩
          | cons t ts => exact ⟨as ++ '/' :: joinSegs (t :: ts), rfl⟩
        obtain ⟨zs, hz⟩ := hhead
        rw [hz, List.dropWhile_cons]
        simp [ha]
  unfold stripC
  rw [hdrop, rstripC_joinSegs hs]

theorem urlPathC_host (X : List Char) :
    urlPathC ("https://host".toList ++ '/' :: X) = '/' :: X := rfl

theorem parseOwnerRepo_urlOfSegs {segs : List (List Char)} (hne : segs ≠ [])
    (hs : ∀ s ∈ segs, s ≠ [] ∧ '/' ∉ s) :
    parseOwnerRepo (urlOfSegs segs) =
      (match segs with
       | a :: b :: _ => some (String.mk a, String.mk b)
       | _ => none) := by
  unfold parseOwnerRepo urlOfSegs
  rw [show (String.mk ("https://host".toList ++ '/' :: joinSegs segs)).toList
        = "https://host".toList ++ '/' :: joinSegs segs from rfl,
    urlPathC_host, stripC_slash_joinSegs hne hs,
    splitOnC_joinSegs hne (fun s hu => (hs s hu).2)]
  cases segs with
  | nil => rfl
  | cons a t => cases t <;> rfl

theorem parseOwnerRepoSpec_urlOfSegs {segs : List (List Char)} (hne : segs ≠ [])
    (hs : ∀ s ∈ segs, s ≠ [] ∧ '/' ∉ s) :
    parseOwnerRepoSpec (urlOfSegs segs) =
      (match segs with
       | a :: b :: _ => some (String.mk a, String.mk b)
       | _ => none) := by
  unfold parseOwnerRepoSpec urlOfSegs
  rw [show (String.mk ("https://host".toList ++ '/' :: joinSegs segs)).toList
        = "https://host".toList ++ '/' :: joinSegs segs from rfl,
    urlPathC_host,
    show splitOnC '/' ('/' :: joinSegs segs) = [] :: splitOnC '/' (joinSegs segs) from by
      simp [splitOnC],
    splitOnC_joinSegs hne (fun s hu => (hs s hu).2)]
  have hfil : (([] :: segs).filter (fun s => s ≠ [])) = segs := by
    rw [show (([] : List Char) :: segs).filter (fun s => s ≠ [])
          = segs.filter (fun s => s ≠ []) from by simp,
      List.filter_eq_self.mpr (fun s hu => by simpa using (hs s hu).1)]
  rw [hfil]
  cases segs with
  | nil => rfl
  | cons a t => cases t <;> rfl

/-! ## Helper lemmas about the breadth-first walker of scripts 1 and 2 -/

theorem bfsRound_eq (api : ListingApi) :
    ∀ ds : List String,
      bfsRound api ds =
        ((ds.map (fun d => (classify (listDir api d)).1)).flatten, stepDirs api ds)
  | [] => rfl
  | d :: rest => by
    have ih := bfsRound_eq api rest
    simp [bfsRound, ih, stepDirs]

theorem bfsLoop_nil (api : ListingApi) : ∀ fuel, bfsLoop api fuel [] = []
  | 0 => rfl
  | _ + 1 => by simp [bfsLoop]

theorem bfsLoopReqs_nil (api : ListingApi) : ∀ fuel, bfsLoopReqs api fuel [] = []
  | 0 => rfl
  | _ + 1 => by simp [bfsLoopReqs]

theorem stepDirs_nil (api : ListingApi) : stepDirs api [] = [] := rfl

theorem dirsAt_nil (api : ListingApi) : ∀ k, dirsAt api [] k = []
  | 0 => rfl
  | k + 1 => by
    show dirsAt api (stepDirs api []) k = []
    rw [stepDirs_nil]
    exact dirsAt_nil api k

theorem filesAt_nil (api : ListingApi) (k : Nat) : filesAt api [] k = [] := by
  simp [filesAt, dirsAt_nil]

/-- The fueled worklist loop computes exactly the files of the first
`fuel` listing rounds. -/
theorem bfsLoop_eq_filesAt (api : ListingApi) :
    ∀ (fuel : Nat) (ds : List String),
      bfsLoop api fuel ds = ((List.range fuel).map (filesAt api ds)).flatten
  | 0, _ => rfl
  | fuel + 1, ds => by
    by_cases hds : ds = []
    · subst hds
      rw [bfsLoop_nil]
      symm
      rw [List.flatten_eq_nil_iff]
      intro l hl
      obtain ⟨k, _, rfl⟩ := List.mem_map.mp hl
      exact filesAt_nil api k
    · have ih := bfsLoop_eq_filesAt api fuel (stepDirs api ds)
      have h0 : (bfsRound api ds).1 = filesAt api ds 0 := by
        rw [bfsRound_eq]
        rfl
      have h2 : (bfsRound api ds).2 = stepDirs api ds := by rw [bfsRound_eq]
      rw [show bfsLoop api (fuel + 1) ds
            = (bfsRound api ds).1 ++ bfsLoop api fuel (bfsRound api ds).2 from by
          simp [bfsLoop, hds]]
      rw [h0, h2, ih, List.range_succ_eq_map, List.map_cons, List.flatten_cons,
        List.map_map]
      congr 1

/-- The requested worklists are exactly the first `fuel` rounds of
directories. -/
theorem bfsLoopReqs_eq_dirsAt (api : ListingApi) :
    ∀ (fuel : Nat) (ds : List String),
      bfsLoopReqs api fuel ds = ((List.range fuel).map (dirsAt api ds)).flatten
  | 0, _ => rfl
  | fuel + 1, ds => by
    by_cases hds : ds = []
    · subst hds
      rw [bfsLoopReqs_nil]
      symm
      rw [List.flatten_eq_nil_iff]
      intro l hl
      obtain ⟨k, _, rfl⟩ := List.mem_map.mp hl
      exact dirsAt_nil api k
    · have ih := bfsLoopReqs_eq_dirsAt api fuel (stepDirs api ds)
      have h2 : (bfsRound api ds).2 = stepDirs api ds := by rw [bfsRound_eq]
      rw [show bfsLoopReqs api (fuel + 1) ds
            = ds ++ bfsLoopReqs api fuel (bfsRound api ds).2 from by
          simp [bfsLoopReqs, hds]]
      rw [h2, ih, List.range_succ_eq_map, List.map_cons, List.flatten_cons,
        List.map_map]
      rfl

theorem listDir_totalize (api : ListingApi) (d : String) :
    listDir (totalizeApi api) d = listDir api d := by
  simp [listDir, totalizeApi]

theorem bfsRound_totalize (api : ListingApi) :
    ∀ ds, bfsRound (totalizeApi api) ds = bfsRound api ds
  | [] => rfl
  | d :: rest => by
    simp [bfsRound, listDir_totalize, bfsRound_totalize api rest]

theorem bfsLoop_totalize (api : ListingApi) :
    ∀ fuel ds, bfsLoop (totalizeApi api) fuel ds = bfsLoop api fuel ds
  | 0, _ => rfl
  | fuel + 1, ds => by
    by_cases hds : ds = []
    · simp [bfsLoop, hds]
    · simp [bfsLoop, hds, bfsRound_totalize, bfsLoop_totalize api fuel]

/-! ## Helper lemmas about the recursive walker of script 4 -/

mutual
theorem walk4Rows_totalize :
    ∀ (t : DirTree) (dp : String), walk4Rows dp (totalizeTree t) = walk4Rows dp t
  | .fail, _ => rfl
  | .ok es, dp => walk4RowsList_totalize es dp
theorem walk4RowsList_totalize :
    ∀ (es : EntryList) (dp : String),
      walk4RowsList dp (totalizeList es) = walk4RowsList dp es
  | .nil, _ => rfl
  | .cons it sub rest, dp => by
    simp only [totalizeList, walk4RowsList,
      walk4Rows_totalize sub, walk4RowsList_totalize rest]
end

mutual
theorem walk4Reqs_relabel (f : String → String) :
    ∀ (t : DirTree) (dp : String), walk4Reqs dp (relabelPaths f t) = walk4Reqs dp t
  | .fail, _ => rfl
  | .ok es, dp => by
    simp only [relabelPaths, walk4Reqs, walk4ReqsList_relabel f es dp]
theorem walk4ReqsList_relabel (f : String → String) :
    ∀ (es : EntryList) (dp : String),
      walk4ReqsList dp (relabelPathsList f es) = walk4ReqsList dp es
  | .nil, _ => rfl
  | .cons it sub rest, dp => by
    simp only [relabelPathsList, walk4ReqsList,
      walk4Reqs_relabel f sub, walk4ReqsList_relabel f rest]
end

mutual
theorem walk4Rows_relabel (f : String → String) :
    ∀ (t : DirTree) (dp : String), walk4Rows dp (relabelPaths f t) = walk4Rows dp t
  | .fail, _ => rfl
  | .ok es, dp => by
    simp only [relabelPaths, walk4Rows, walk4RowsList_relabel f es dp]
theorem walk4RowsList_relabel (f : String → String) :
    ∀ (es : EntryList) (dp : String),
      walk4RowsList dp (relabelPathsList f es) = walk4RowsList dp es
  | .nil, _ => rfl
  | .cons it sub rest, dp => by
    simp only [relabelPathsList, walk4RowsList,
      walk4Rows_relabel f sub, walk4RowsList_relabel f rest]
end

theorem walk4Rows_chainTree :
    ∀ (n : Nat) (dp : String), (walk4Rows dp (chainTree n)).length = n + 1
  | 0, dp => by
    simp [chainTree, walk4Rows, walk4RowsList, mkFile]
  | n + 1, dp => by
    have ih := walk4Rows_chainTree n (joinPath dp "d")
    simp [chainTree, walk4Rows, walk4RowsList, mkFile, mkDir, ih]

/-! ## Helper lemmas about the csv model -/

/-- Character-level form of `okField`. -/
def okC (s : List Char) : Prop :=
  ∀ ch ∈ s, ch ≠ ',' ∧ ch ≠ '"' ∧ ch ≠ '\r' ∧ ch ≠ '\n'

theorem needsQuote_eq_false {s : List Char} (h : okC s) : needsQuote s = false := by
  rw [needsQuote, List.any_eq_false]
  intro c hc
  rcases h c hc with ⟨h1, h2, h3, h4⟩
  simp [h1, h2, h3, h4]

theorem encodeField_eq_self {s : List Char} (h : okC s) : encodeField s = s := by
  rw [encodeField, needsQuote_eq_false h]
  rfl

theorem csvLine_decomp {a b : List Char} (ha : okC a) (hb : okC b) :
    csvLine a b = ((a ++ ',' :: b) ++ ['\r']) ++ ['\n'] := by
  rw [csvLine, encodeField_eq_self ha, encodeField_eq_self hb]
  simp

theorem splitOnC_terminated :
    ∀ (ls : List (List Char)), (∀ l ∈ ls, '\n' ∉ l) →
      splitOnC '\n' ((ls.map (fun l => l ++ ['\n'])).flatten) = ls ++ [[]]
  | [], _ => rfl
  | l :: rest, h => by
    have h1 : '\n' ∉ l := h l (List.mem_cons_self _ _)
    have ih := splitOnC_terminated rest (fun u hu => h u (List.mem_cons_of_mem l hu))
    rw [List.map_cons, List.flatten_cons, List.append_assoc,
      show (['\n'] ++ (rest.map (fun u => u ++ ['\n'])).flatten)
        = '\n' :: (rest.map (fun u => u ++ ['\n'])).flatten from rfl,
      splitOnC_append _ h1, ih]
    rfl

theorem chopCarriage_concat (l : List Char) : chopCarriage (l ++ ['\r']) = l := by
  simp [chopCarriage, List.getLast?_concat, List.dropLast_concat]

/-- The full csv round trip at the character level: under unquotable
fields, a standard reader recovers the header and every record in
order. -/
theorem parseCsvC_writeCsvC (rows : List (List Char × List Char))
    (h : ∀ p ∈ rows, okC p.1 ∧ okC p.2) :
    parseCsvC (writeCsvC rows) =
      ["articleName".toList, "articleUrl".toList] :: rows.map (fun p => [p.1, p.2]) := by
  have hokA : okC "articleName".toList := by simp only [okC]; decide
  have hokB : okC "articleUrl".toList := by simp only [okC]; decide
  have hall : ∀ p : List Char × List Char,
      p ∈ (("articleName".toList, "articleUrl".toList) :: rows) →
      okC p.1 ∧ okC p.2 := by
    intro p hp
    rcases List.mem_cons.mp hp with hp | hp
    · rw [hp]; exact ⟨hokA, hokB⟩
    · exact h p hp
  set recs := ("articleName".toList, "articleUrl".toList) :: rows with hrecs
  have hcontent : writeCsvC rows
      = ((recs.map (fun p => (p.1 ++ ',' :: p.2) ++ ['\r'])).map
          (fun l => l ++ ['\n'])).flatten := by
    rw [writeCsvC, hrecs, List.map_cons, List.map_cons, List.flatten_cons,
      csvLine_decomp hokA hokB]
    congr 1
    rw [List.map_map]
    congr 1
    apply List.map_congr_left
    intro p hp
    rcases h p hp with ⟨hp1, hp2⟩
    show csvLine p.1 p.2 = _
    rw [csvLine_decomp hp1 hp2]
    rfl
  have hnl : ∀ l ∈ recs.map (fun p => (p.1 ++ ',' :: p.2) ++ ['\r']), '\n' ∉ l := by
    intro l hl
    obtain ⟨p, hp, rfl⟩ := List.mem_map.mp hl
    rcases hall p hp with ⟨hp1, hp2⟩
    intro hmem
    rcases List.mem_append.mp hmem with hmem | hmem
    · rcases List.mem_append.mp hmem with hmem | hmem
      · exact (hp1 _ hmem).2.2.2 rfl
      · rcases List.mem_cons.mp hmem with hmem | hmem
        · exact absurd hmem.symm (by decide)
        · exact (hp2 _ hmem).2.2.2 rfl
    · exact absurd (List.mem_singleton.mp hmem) (by decide)
  rw [parseCsvC, hcontent, splitOnC_terminated _ hnl, List.map_append,
    List.map_map]
  have hchop : recs.map
      (chopCarriage ∘ fun (p : List Char × List Char) => (p.1 ++ ',' :: p.2) ++ ['\r'])
      = recs.map (fun (p : List Char × List Char) => p.1 ++ ',' :: p.2) := by
    apply List.map_congr_left
    intro p _
    exact chopCarriage_concat _
  rw [hchop,
    show List.map chopCarriage [[]] = [([] : List Char)] from rfl]
  have hfil : (recs.map (fun (p : List Char × List Char) => p.1 ++ ',' :: p.2) ++ [[]]).filter
      (fun l => l ≠ []) = recs.map (fun (p : List Char × List Char) => p.1 ++ ',' :: p.2) := by
    rw [List.filter_append]
    rw [show ([([] : List Char)].filter (fun l => l ≠ [])) = [] from rfl,
      List.append_nil]
    apply List.filter_eq_self.mpr
    intro l hl
    obtain ⟨p, _, rfl⟩ := List.mem_map.mp hl
    simp
  rw [hfil, List.map_map, hrecs, List.map_cons]
  congr 1
  apply List.map_congr_left
  intro p hp
  rcases h p hp with ⟨hp1, hp2⟩
  have h1 : ',' ∉ p.1 := fun hm => (hp1 _ hm).1 rfl
  have h2 : ',' ∉ p.2 := fun hm => (hp2 _ hm).1 rfl
  show splitOnC ',' (p.1 ++ ',' :: p.2) = [p.1, p.2]
  rw [splitOnC_append _ h1, splitOnC_nosep h2]

theorem string_mk_toList (s : String) : String.mk s.toList = s := by
  cases s
  rfl

/-- Each of the `n` residues is hit by exactly one random value per
period of `n`. -/
theorem choiceIdx_uniform {n j : Nat} (hj : j < n) :
    ((List.range n).filter (fun rr => choiceIdx n rr == j)).length = 1 := by
  have hcong : ∀ x ∈ List.range n, (choiceIdx n x == j) = (x == j) := by
    intro x hx
    have hlt := List.mem_range.mp hx
    simp [choiceIdx, Nat.mod_eq_of_lt hlt]
  rw [List.filter_congr hcong, ← List.countP_eq_length_filter]
  exact List.count_eq_one_of_mem (List.nodup_range n) (List.mem_range.mpr hj)

/-! ## The claims -/

/-- C1: the claim states every directory-listing request of every flow is
a `GET <api-root>/repos/{owner}/{repo}/contents/{path}` built from the
parsed owner and repo. Flows 2, 3 and 4 do build that URL, but flow 1
(`1_fetchRandomFile.py` line 29) sends its listing requests to a
hard-coded HTML tree page that ignores the parsed owner/repo entirely —
under its own comment reading "Base URL for GitHub API" and a docstring
promising to fetch from the repository given by `repo_url`. Evaluated at
the failing input `"https://github.com/alice/proj"`: the parser yields
`("alice", "proj")`, yet script 1's listing URL is the constant, which
matches no instance of the claimed form for that owner/repo. -/
theorem C1_script1_listing_url_mismatch :
    parseOwnerRepo "https://github.com/alice/proj" = some ("alice", "proj")
    ∧ script1_api_url
        = "https://github.com/krutikpatel/tech-revision-notes/tree/main/SpringFramework"
    ∧ script1_api_url ≠ specListingUrl "alice" "proj" ""
    ∧ script1_api_url ≠ specListingUrl "alice" "proj" "SpringFramework"
    ∧ script2_api_url "alice" "proj" = "https://api.github.com/repos/alice/proj/contents"
    ∧ script2_dir_url "alice" "proj" "docs" = specListingUrl "alice" "proj" "docs"
    ∧ script4_api_url "alice" "proj" "docs" = specListingUrl "alice" "proj" "docs" := by
  refine ⟨by decide, rfl, by decide, by decide, rfl, rfl, rfl⟩

/-- C2 counterexample: the claim says the parser returns the first two
NON-EMPTY segments of the URL's path for every repository URL. For
`"https://host/alice//proj"` the code returns `("alice", "")` (the second
raw segment is empty), while the first two non-empty segments — what the
spec-worded parser computes — are `("alice", "proj")`. -/
theorem C2_counterexample :
    parseOwnerRepo "https://host/alice//proj" = some ("alice", "")
    ∧ parseOwnerRepoSpec "https://host/alice//proj" = some ("alice", "proj")
    ∧ parseOwnerRepo "https://host/alice//proj" ≠ some ("alice", "proj") := by
  refine ⟨by decide, by decide, by decide⟩

/-- C2 (amended): the URL Parser strips leading and trailing `/` from the
URL's path component, splits on `/`, and returns the first two segments
(which may be empty when the path holds consecutive interior slashes) as
owner and repo; on every URL whose path consists of non-empty slash-free
segments this coincides with the spec's "first two non-empty segments";
with fewer than two segments it returns the null result; in particular
`"https://host/alice/proj"` yields `("alice", "proj")`. -/
theorem C2_parser_first_two_segments (segs : List (List Char))
    (hne : segs ≠ []) (hs : ∀ s ∈ segs, s ≠ [] ∧ '/' ∉ s) :
    parseOwnerRepo (urlOfSegs segs)
        = (match segs with
           | a :: b :: _ => some (String.mk a, String.mk b)
           | _ => none)
    ∧ parseOwnerRepo (urlOfSegs segs) = parseOwnerRepoSpec (urlOfSegs segs)
    ∧ parseOwnerRepo "https://host/alice/proj" = some ("alice", "proj")
    ∧ parseOwnerRepo "https://host/alice" = none := by
  refine ⟨parseOwnerRepo_urlOfSegs hne hs, ?_, by decide, by decide⟩
  rw [parseOwnerRepo_urlOfSegs hne hs, parseOwnerRepoSpec_urlOfSegs hne hs]

theorem C2_parser_first_two_segments_witness :
    parseOwnerRepo (urlOfSegs [['a'], ['b'], ['c']]) = some ("a", "b")
    ∧ parseOwnerRepo (urlOfSegs [['a'], ['b'], ['c']])
        = parseOwnerRepoSpec (urlOfSegs [['a'], ['b'], ['c']]) := by
  have h := C2_parser_first_two_segments [['a'], ['b'], ['c']] (by decide)
    (by decide)
  exact ⟨h.1, h.2.1⟩

/-- C3 counterexample: the claim says the bounded walkers build each
child's listing path themselves by joining the parent path and the entry
name with `/`. On a root listing holding one directory entry named `"d"`
whose API-supplied `path` field is `"WEIRD"`, the scripts-1/2 walker
requests `"WEIRD"` — the API-supplied value — and never the joined path
`"d"` the claim requires. -/
theorem C3_counterexample :
    collectReqs (apiSingleDir "WEIRD") = ["", "WEIRD"]
    ∧ joinPath "" "d" = "d"
    ∧ collectReqs (apiSingleDir "WEIRD") ≠ ["", joinPath "" "d"] := by
  refine ⟨by decide, by decide, by decide⟩

/-- C3 (amended): only the CSV-export walker of script 4 constructs each
child's logical path itself by joining the parent path and the entry
name with `/` — its requests and rows are invariant under arbitrary
relabelling of the API-supplied `path` fields, and descending into a
`dir` entry requests exactly the joined path. The bounded walkers of
scripts 1 and 2 instead use the entry's API-supplied `path` field
verbatim as the child listing path (and record file entries with their
API-supplied fields). -/
theorem C3_child_path_construction (p : String) (hp : p ≠ "")
    (f : String → String) (t : DirTree) (dp : String) (it : Item)
    (sub : DirTree) (rest : EntryList) (hdir : it.type = "dir") :
    collectReqs (apiSingleDir p) = ["", p]
    ∧ walk4Reqs dp (relabelPaths f t) = walk4Reqs dp t
    ∧ walk4Rows dp (relabelPaths f t) = walk4Rows dp t
    ∧ walk4ReqsList dp (.cons it sub rest)
        = walk4Reqs (joinPath dp it.name) sub ++ walk4ReqsList dp rest
    ∧ walk4RowsList dp (.cons it sub rest)
        = walk4Rows (joinPath dp it.name) sub ++ walk4RowsList dp rest := by
  refine ⟨?_, walk4Reqs_relabel f t dp, walk4Rows_relabel f t dp, ?_, ?_⟩
  · simp [collectReqs, apiSingleDir, classify, listDir, bfsLoopReqs, bfsRound,
      mkDir, hp]
  · simp [walk4ReqsList, hdir]
  · simp [walk4RowsList, hdir]

theorem C3_child_path_construction_witness :
    collectReqs (apiSingleDir "x") = ["", "x"]
    ∧ walk4Reqs "s" (relabelPaths id exTree) = walk4Reqs "s" exTree
    ∧ walk4Rows "s" (relabelPaths id exTree) = walk4Rows "s" exTree
    ∧ walk4ReqsList "s" (.cons (mkDir "sub" "apipath") (.ok .nil) .nil)
        = walk4Reqs (joinPath "s" "sub") (.ok .nil) ++ walk4ReqsList "s" .nil
    ∧ walk4RowsList "s" (.cons (mkDir "sub" "apipath") (.ok .nil) .nil)
        = walk4Rows (joinPath "s" "sub") (.ok .nil) ++ walk4RowsList "s" .nil :=
  C3_child_path_construction "x" (by decide) id exTree "s"
    (mkDir "sub" "apipath") (.ok .nil) .nil (by decide)

/-- C4: a listing failure on a non-root directory is caught and
contributes zero files, so the walkers' results equal the traversal in
which every failing directory simply yields an empty listing (the
non-failing entries alone); a failure of the very first (root) listing
aborts the whole operation with the no-files sentinel. `totalizeApi` /
`totalizeTree` replace exactly the failing listings by empty ones, so the
stated equalities say the failures are isolated; `api2` is any API whose
root request fails. -/
theorem C4_failure_isolation (api : ListingApi) (c : List Item)
    (hroot : api "" = some c) (api2 : ListingApi) (hroot2 : api2 "" = none)
    (r : Nat) (t : DirTree) (dp : String) :
    collectFiles api = collectFiles (totalizeApi api)
    ∧ collectFiles api2 = none
    ∧ get_random_file_link api2 r = none
    ∧ fetch_random_file api2 r (fun _ => some "body") = (none, none)
    ∧ walk4Rows dp t = walk4Rows dp (totalizeTree t) := by
  refine ⟨?_, ?_, ?_, ?_, (walk4Rows_totalize t dp).symm⟩
  · simp [collectFiles, totalizeApi, hroot, bfsLoop_totalize]
  · simp [collectFiles, hroot2]
  · simp [get_random_file_link, collectFiles, hroot2]
  · simp [fetch_random_file, collectFiles, hroot2]

theorem C4_failure_isolation_witness :
    collectFiles apiSib = collectFiles (totalizeApi apiSib)
    ∧ collectFiles apiDead = none
    ∧ get_random_file_link apiDead 0 = none
    ∧ fetch_random_file apiDead 0 (fun _ => some "body") = (none, none)
    ∧ walk4Rows "s" exTree = walk4Rows "s" (totalizeTree exTree) :=
  C4_failure_isolation apiSib [mkDir "a" "pa", mkDir "b" "pb"] rfl
    apiDead rfl 0 exTree "s"

/-- C5: the scripts-1/2 walker's result is exactly the files whose
containing directory lies at most 2 listing descents below the start
(`filesWithinDepth api 2`), and the directories it requests are exactly
the start (`""`), those one descent below (`dirsAt .. 0`) and those two
descents below (`dirsAt .. 1`) — never anything deeper; the script-4
export walker by contrast collects one row per file of a directory chain
of arbitrary depth `n`, so its descent is unbounded. -/
theorem C5_depth_bound (api : ListingApi) (c : List Item)
    (hroot : api "" = some c) (n : Nat) (dp : String) :
    collectFiles api = some (filesWithinDepth api 2)
    ∧ collectReqs api
        = "" :: (dirsAt api (classify c).2 0 ++ dirsAt api (classify c).2 1)
    ∧ (walk4Rows dp (chainTree n)).length = n + 1 := by
  refine ⟨?_, ?_, walk4Rows_chainTree n dp⟩
  · simp only [collectFiles, filesWithinDepth, hroot]
    rw [bfsLoop_eq_filesAt]
  · simp only [collectReqs, hroot]
    rw [bfsLoopReqs_eq_dirsAt, show List.range 2 = [0, 1] from rfl]
    simp

theorem C5_depth_bound_witness :
    collectFiles apiChain = some (filesWithinDepth apiChain 2)
    ∧ collectReqs apiChain
        = "" :: (dirsAt apiChain (classify [mkFile "f0", mkDir "d" "p1"]).2 0
            ++ dirsAt apiChain (classify [mkFile "f0", mkDir "d" "p1"]).2 1)
    ∧ (walk4Rows "s" (chainTree 3)).length = 3 + 1 :=
  C5_depth_bound apiChain [mkFile "f0", mkDir "d" "p1"] rfl 3 "s"

/-- C6: an empty discovered-files collection makes every terminal action
report failure without any filesystem write: the CSV exporter returns
`False` with its output file never created, and script 1's `__main__`
never invokes `save_file` (the fetch already returned the
`(None, None)` sentinel). -/
theorem C6_empty_collection_no_write (url : String) (t : DirTree)
    (sp : String) (h4 : walk4Rows sp t = []) (api : ListingApi) (r : Nat)
    (dl : String → Option String) (h12 : collectFiles api = some []) :
    get_files_from_subdir url t sp = { success := false, written := none }
    ∧ fetch_random_file api r dl = (none, none)
    ∧ script1_main (fetch_random_file api r dl)
        = { saved := false, message := "Failed to fetch a random file." } := by
  refine ⟨?_, ?_, ?_⟩
  · rw [get_files_from_subdir]
    cases hparse : parseOwnerRepo url with
    | none => rfl
    | some pr => simp [h4]
  · simp [fetch_random_file, h12]
  · simp [fetch_random_file, h12, script1_main, truthyStr]

theorem C6_empty_collection_no_write_witness :
    get_files_from_subdir "https://host/a/b" (.ok .nil) "s"
        = { success := false, written := none }
    ∧ fetch_random_file apiEmpty 0 (fun _ => some "body") = (none, none)
    ∧ script1_main (fetch_random_file apiEmpty 0 (fun _ => some "body"))
        = { saved := false, message := "Failed to fetch a random file." } :=
  C6_empty_collection_no_write "https://host/a/b" (.ok .nil) "s" rfl
    apiEmpty 0 (fun _ => some "body") rfl

/-- C7: parsing the exporter's csv output with a standard
delimited-format reader yields the `articleName`/`articleUrl` header row
followed by exactly one row per input entry, in input order, with the
entry's path-qualified name and view link — for every input whose fields
need no quoting (per the spec, the only fields this domain produces). -/
theorem C7_csv_round_trip (rows : List (String × String))
    (h : ∀ p ∈ rows, okField p.1 ∧ okField p.2) :
    parseCsv (writeCsv rows)
      = ["articleName", "articleUrl"] :: rows.map (fun p => [p.1, p.2]) := by
  have hok : ∀ p ∈ rows.map (fun r => (r.1.toList, r.2.toList)),
      okC p.1 ∧ okC p.2 := by
    intro p hp
    obtain ⟨q, hq, rfl⟩ := List.mem_map.mp hp
    exact h q hq
  rw [writeCsv, parseCsv,
    show (String.mk (writeCsvC (rows.map (fun r => (r.1.toList, r.2.toList))))).toList
        = writeCsvC (rows.map (fun r => (r.1.toList, r.2.toList))) from rfl,
    parseCsvC_writeCsvC _ hok]
  simp [string_mk_toList, Function.comp]

theorem C7_csv_round_trip_witness :
    parseCsv (writeCsv [("SpringFramework/A.md", "https://host/A.md")])
      = [["articleName", "articleUrl"],
         ["SpringFramework/A.md", "https://host/A.md"]] :=
  C7_csv_round_trip [("SpringFramework/A.md", "https://host/A.md")]
    (by simp only [okField]; decide)

/-- C8: over a non-empty collection of size `k`, each of the `k`
elements is returned for some random state (index `i` is hit by state
`i`), each residue class of states selects its element exactly once per
period (uniformity), selection is not deterministic (two states pick two
distinct elements of `exTwo`), and the Selector is never reached with an
empty collection — the flow returns the no-files sentinel first. -/
theorem C8_selector_uniform (xs : List Item) (i : Nat) (hi : i < xs.length)
    (n j : Nat) (hj : j < n) (api : ListingApi) (r : Nat)
    (hempty : collectFiles api = some []) :
    (∃ rr : Nat, randomChoice xs rr = xs.get? i)
    ∧ ((List.range n).filter (fun rr => choiceIdx n rr == j)).length = 1
    ∧ randomChoice exTwo 0 ≠ randomChoice exTwo 1
    ∧ get_random_file_link api r = none := by
  refine ⟨⟨i, ?_⟩, choiceIdx_uniform hj, by decide,
    by simp [get_random_file_link, hempty]⟩
  rw [randomChoice, choiceIdx, Nat.mod_eq_of_lt hi]

theorem C8_selector_uniform_witness :
    (∃ rr : Nat, randomChoice exTwo rr = exTwo.get? 1)
    ∧ ((List.range 5).filter (fun rr => choiceIdx 5 rr == 2)).length = 1
    ∧ randomChoice exTwo 0 ≠ randomChoice exTwo 1
    ∧ get_random_file_link apiEmpty 7 = none :=
  C8_selector_uniform exTwo 1 (by decide) 5 2 (by decide) apiEmpty 7 rfl

/-- C9: when every content download succeeds but returns the empty
string, script 1's `__main__` never calls `save_file` and prints the
failed-to-fetch message — the empty string is falsy under
`if file_name and file_content:`, so a successfully downloaded zero-byte
file is never written. -/
theorem C9_empty_content_not_saved (api : ListingApi) (r : Nat)
    (dl : String → Option String) (hdl : ∀ u, dl u = some "") :
    script1_main (fetch_random_file api r dl)
      = { saved := false, message := "Failed to fetch a random file." } := by
  rw [fetch_random_file]
  cases hc : collectFiles api with
  | none => simp [script1_main, truthyStr]
  | some files =>
    by_cases hf : files = []
    · simp [hf, script1_main, truthyStr]
    · cases hrc : randomChoice files r with
      | none => simp [hf, hrc, script1_main, truthyStr]
      | some f =>
        simp [hf, hrc, hdl f.download_url, script1_main, truthyStr]

theorem C9_empty_content_not_saved_witness :
    script1_main (fetch_random_file apiOneFile 0 (fun _ => some ""))
      = { saved := false, message := "Failed to fetch a random file." } :=
  C9_empty_content_not_saved apiOneFile 0 (fun _ => some "") (fun _ => rfl)

/-- C10: the exporter forms `articleName` as `dir_path ++ "/" ++ name`
unconditionally for every file (only the directory recursion guards the
empty parent path), so every file listed directly under an empty starting
path is exported with a leading `/` in its `articleName`. -/
theorem C10_leading_slash (fs : List Item) (dp : String)
    (hfs : ∀ f ∈ fs, f.type = "file") :
    walk4Rows dp (DirTree.ok (filesEntries fs))
        = fs.map (fun f => (dp ++ "/" ++ f.name, f.html_url))
    ∧ walk4Rows "" (DirTree.ok (filesEntries fs))
        = fs.map (fun f => ("/" ++ f.name, f.html_url)) := by
  have hgen : ∀ (gs : List Item) (d : String), (∀ f ∈ gs, f.type = "file") →
      walk4Rows d (DirTree.ok (filesEntries gs))
        = gs.map (fun f => (d ++ "/" ++ f.name, f.html_url)) := by
    intro gs
    induction gs with
    | nil => intro d _; rfl
    | cons f rest ih =>
      intro d hall
      have hf := hall f (List.mem_cons_self _ _)
      have ihh := ih d (fun g hg => hall g (List.mem_cons_of_mem f hg))
      simp only [filesEntries, walk4Rows, walk4RowsList, hf, List.map_cons] at *
      simp [hf, ihh]
  refine ⟨hgen fs dp hfs, ?_⟩
  rw [hgen fs "" hfs]
  apply List.map_congr_left
  intro f _
  rw [show ("" : String) ++ "/" = "/" from rfl]

theorem C10_leading_slash_witness :
    walk4Rows "docs" (DirTree.ok (filesEntries [mkFile "A.md"]))
        = [("docs" ++ "/" ++ "A.md", "https://host/view/A.md")]
    ∧ walk4Rows "" (DirTree.ok (filesEntries [mkFile "A.md"]))
        = [("/" ++ "A.md", "https://host/view/A.md")] :=
  C10_leading_slash [mkFile "A.md"] "docs" (by decide)

end GhScripts
